import Mathlib

/-!
# Verification of the arcadeV2 payment-ledger and play-session core

Shallow embedding of the server code of `arcadeV2`:
`src/server/wallet.mjs`, `src/server/webhook.mjs`, `src/server/api.mjs`,
the sqlite schema (`db.mjs`), the sku catalog (`catalog.mjs`), the env
construction (`env.mjs`) and the crypto helpers (`util/crypto.mjs`).

Modelling conventions:
* Timestamps are naturals (milliseconds).  The code stores ISO-8601 strings
  and compares them either as `Date` objects or lexicographically in SQL;
  for same-format ISO strings both orders coincide with chronological order.
* `wallets` has `user_id` as PRIMARY KEY, so the table is modelled as a
  finite map `String → Option Wallet`; the other tables are row lists.
* Randomness (`randomUUID`, `randomBytes`) is passed in as parameters.
* The HMAC primitive and the JSON parser are opaque imports in the code;
  the webhook handler is parameterised over them.
-/

/-- A wallet row (`wallets` table): `credits INTEGER NOT NULL DEFAULT 0`,
`pass_expires_at TEXT` nullable.  Credits are an SQL `INTEGER`, hence `Int`. -/
structure Wallet where
  credits : Int
  passExpiresAt : Option Nat
deriving DecidableEq, Repr

/-- An order row (`orders` table). -/
structure Order where
  orderId : String
  userId : String
  sku : String
  amountUsd : String
  coinbaseChargeId : Option String
  coinbaseCode : Option String
  hostedUrl : Option String
  status : String
  createdAt : Nat
  updatedAt : Nat
  fulfilledAt : Option Nat
deriving DecidableEq, Repr

/-- A ledger row (`transactions` table); `meta_json` is omitted (free-form
audit text, never read back by the code). -/
structure Txn where
  txId : String
  userId : String
  kind : String
  sku : Option String
  deltaCredits : Int
  createdAt : Nat
deriving DecidableEq, Repr

/-- A play-session row (`play_sessions` table). -/
structure PlaySession where
  playToken : String
  userId : String
  gameId : String
  mode : String
  expiresAt : Nat
  createdAt : Nat
deriving DecidableEq, Repr

/-- The durable store: the four tables created in `db.mjs`. -/
@[ext]
structure Db where
  orders : List Order
  wallets : String → Option Wallet
  transactions : List Txn
  playSessions : List PlaySession

/-- A catalog entry of `SKU_CATALOG` (`commerce/catalog.mjs`). -/
structure CatalogItem where
  usd : String
  name : String
  grantCredits : Nat
  passMinutes : Nat
deriving DecidableEq, Repr

/-- Model of `SKU_CATALOG` from `src/server/commerce/catalog.mjs`. -/
def SKU_CATALOG : String → Option CatalogItem
  | "CREDITS_10" => some ⟨"5.00", "10 Credits", 10, 0⟩
  | "CREDITS_50" => some ⟨"20.00", "50 Credits", 50, 0⟩
  | "PASS_60_MIN" => some ⟨"7.00", "Play Pass (60 min)", 0, 60⟩
  | _ => none

/-- Overwrite the wallet row of one user (`UPDATE wallets ... WHERE user_id = ?`
with `user_id` a primary key, or the insert of a fresh row). -/
def setWallet (db : Db) (uid : String) (w : Wallet) : Db :=
  { db with wallets := fun u => if u = uid then some w else db.wallets u }

/-- The fresh row inserted by `ensureWallet`: credits 0, no pass. -/
def emptyWallet : Wallet := ⟨0, none⟩

/-- Model of `ensureWallet` (wallet.mjs): `INSERT OR IGNORE INTO wallets (user_id,
credits, pass_expires_at) VALUES (?, 0, NULL)`. -/
def ensureWallet (db : Db) (uid : String) : Db :=
  match db.wallets uid with
  | some _ => db
  | none => setWallet db uid emptyWallet

/-- Model of `getWallet` (wallet.mjs): ensure then read; the read always succeeds
after the ensure, modelled with `getD` (never hit). -/
def getWallet (db : Db) (uid : String) : Wallet × Db :=
  let db := ensureWallet db uid
  (((db.wallets uid).getD emptyWallet), db)

/-- Model of `hasActivePass` (wallet.mjs): pass present and strictly in the future
(`new Date(wallet.pass_expires_at) > new Date()`). -/
def hasActivePass (now : Nat) (w : Wallet) : Bool :=
  match w.passExpiresAt with
  | none => false
  | some t => now < t

/-- Model of `consumeCredit` (wallet.mjs): ensure wallet, then the single conditional
update `UPDATE wallets SET credits = credits - 1 WHERE user_id = ? AND
credits >= 1`; the returned Bool is `result.changes > 0`. -/
def consumeCredit (db : Db) (uid : String) : Bool × Db :=
  let db := ensureWallet db uid
  match db.wallets uid with
  | none => (false, db)
  | some w =>
      if 1 ≤ w.credits then
        (true, setWallet db uid { w with credits := w.credits - 1 })
      else
        (false, db)

/-- Model of `recordPlayTransaction` (wallet.mjs): append one `play` row,
`delta_credits = -1` for credit mode else 0, `sku = NULL`. -/
def recordPlayTransaction (db : Db) (now : Nat) (txId uid : String)
    (mode : String) : Db :=
  { db with transactions := db.transactions ++
      [⟨txId, uid, "play", none, if mode = "credit" then -1 else 0, now⟩] }

/-- Model of `grantForSku` (wallet.mjs): ensure wallet; add credits when
`grantCredits > 0`; when `passMinutes > 0` stack the pass onto
`max(now, current pass_expires_at)`; append one `purchase` transaction. -/
def grantForSku (db : Db) (now : Nat) (txId uid sku : String)
    (item : CatalogItem) : Db :=
  let db := ensureWallet db uid
  let deltaCredits : Int := item.grantCredits
  let db :=
    if 0 < deltaCredits then
      match db.wallets uid with
      | some w => setWallet db uid { w with credits := w.credits + deltaCredits }
      | none => db
    else db
  let db :=
    if 0 < item.passMinutes then
      match db.wallets uid with
      | some w =>
          let base := match w.passExpiresAt with
            | some t => t
            | none => now
          let start := if now < base then base else now
          setWallet db uid
            { w with passExpiresAt := some (start + item.passMinutes * 60000) }
      | none => db
    else db
  { db with transactions := db.transactions ++
      [⟨txId, uid, "purchase", some sku, deltaCredits, now⟩] }

/-- Credit balance of a user as the code observes it (0 when the row is
absent, matching the row `ensureWallet` would create). -/
def creditsOf (db : Db) (uid : String) : Int :=
  ((db.wallets uid).getD emptyWallet).credits

/-- Pass expiry of a user as the code observes it. -/
def passOf (db : Db) (uid : String) : Option Nat :=
  ((db.wallets uid).getD emptyWallet).passExpiresAt

/-- Every wallet row has a non-negative balance. -/
def WalletsNonneg (db : Db) : Prop :=
  ∀ u w, db.wallets u = some w → 0 ≤ w.credits

/-- JavaScript `String.prototype.trim()`: strip leading and trailing
whitespace.  Implemented by structural recursion so that concrete calls
reduce in the kernel (`StrinjsTrim g` of core Lean does not). -/
def jsTrim (s : String) : String :=
  ⟨((s.data.dropWhile Char.isWhitespace).reverse.dropWhile
      Char.isWhitespace).reverse⟩

/-! ## Play-session endpoints (`src/server/api.mjs`) -/

/-- Constant `PLAY_SESSION_DURATION_SECONDS` of api.mjs. -/
def PLAY_SESSION_DURATION_SECONDS : Nat := 300

/-- Milliseconds added to `now` for a new session's `expires_at`. -/
def PLAY_SESSION_DURATION_MS : Nat := PLAY_SESSION_DURATION_SECONDS * 1000

/-- Outcome of `POST /play/start` after bearer authentication. -/
inductive StartResp where
  /-- 400, `gameId is required.` -/
  | badRequest
  /-- 409, `ACTIVE_SESSION_EXISTS` -/
  | activeSessionExists
  /-- 403, `INSUFFICIENT_CREDITS` -/
  | insufficientCredits
  /-- 200, `{ok, playToken, mode, expiresAt}` -/
  | ok (playToken mode : String) (expiresAt : Nat)
deriving DecidableEq, Repr

/-- The `POST /play/start` handler (api.mjs) after authentication.
`gameId` is `none` when the body field is missing or not a string;
`newToken` stands for `randomBytes(24).toString('base64url')` and `txId`
for the `randomUUID` of the play transaction. -/
def startSession (now : Nat) (uid : String) (gameId : Option String)
    (newToken txId : String) (db : Db) : StartResp × Db :=
  match gameId with
  | none => (.badRequest, db)
  | some g =>
    if jsTrim g = "" then (.badRequest, db)
    else if db.playSessions.any
        (fun s => s.userId == uid && decide (now < s.expiresAt)) then
      (.activeSessionExists, db)
    else
      let (w, db) := getWallet db uid
      let expiresAt := now + PLAY_SESSION_DURATION_MS
      -- db.transaction body: pass check on the wallet read above, else
      -- consumeCredit; then insert the session row and the play transaction.
      if hasActivePass now w then
        let db := { db with playSessions := db.playSessions ++
            [⟨newToken, uid, jsTrim g, "pass", expiresAt, now⟩] }
        let db := recordPlayTransaction db now txId uid "pass"
        (.ok newToken "pass" expiresAt, db)
      else if 1 ≤ w.credits then
        let (consumed, db) := consumeCredit db uid
        if consumed then
          let db := { db with playSessions := db.playSessions ++
              [⟨newToken, uid, jsTrim g, "credit", expiresAt, now⟩] }
          let db := recordPlayTransaction db now txId uid "credit"
          (.ok newToken "credit" expiresAt, db)
        else
          (.insufficientCredits, db)
      else
        (.insufficientCredits, db)

/-- Outcome of `GET /play/verify`. -/
inductive VerifyResp where
  /-- 400, `token query parameter is required.` -/
  | badRequest
  /-- 200, `{ok:false, error:'INVALID_TOKEN'}` -/
  | invalidToken
  /-- 200, `{ok:false, error:'TOKEN_EXPIRED'}` -/
  | tokenExpired
  /-- 200, `{ok, gameId, mode, expiresAt}` -/
  | ok (gameId mode : String) (expiresAt : Nat)
deriving DecidableEq, Repr

/-- The `GET /play/verify` handler (api.mjs).  `token` is `none` when the
query parameter is missing or not a string.  The handler performs only a
`SELECT`; the model returns no store, making read-onlyness structural. -/
def verifyToken (now : Nat) (token : Option String) (db : Db) : VerifyResp :=
  match token with
  | none => .badRequest
  | some t =>
    if jsTrim t = "" then .badRequest
    else
      match db.playSessions.find? (fun s => s.playToken == jsTrim t) with
      | none => .invalidToken
      | some s =>
          if s.expiresAt ≤ now then .tokenExpired
          else .ok s.gameId s.mode s.expiresAt

/-- The full route as request → response × store, exhibiting that the
store is returned untouched. -/
def verifyHandler (now : Nat) (token : Option String) (db : Db) :
    VerifyResp × Db :=
  (verifyToken now token db, db)

/-- Modelled from the spec: `src/server/api.mjs` registers no
`POST /play/end` route — only the client page (`src/unnamed/part_004`)
calls it and ignores the response.  Per the spec the endpoint is advisory:
it accepts `{playToken}` and is never authoritative over session
termination, so it changes no stored session state; TTL alone ends
access. -/
def playEnd (_playToken : Option String) (db : Db) : Nat × Db :=
  (200, db)

/-! ## Webhook processing (`src/server/webhook.mjs`, `util/crypto.mjs`,
`env.mjs`) -/

/-- The server environment (`getEnv` in env.mjs); empty strings model
unset variables, exactly as the code tests them for falsiness. -/
structure Env where
  coinbaseApiKey : String
  coinbaseWebhookSecret : String
  fulfillOnEvents : List String
deriving DecidableEq, Repr

/-- Value of one hex digit, `none` for a non-hex character. -/
def hexVal (c : Char) : Option Nat :=
  if '0' ≤ c ∧ c ≤ '9' then some (c.toNat - '0'.toNat)
  else if 'a' ≤ c ∧ c ≤ 'f' then some (c.toNat - 'a'.toNat + 10)
  else if 'A' ≤ c ∧ c ≤ 'F' then some (c.toNat - 'A'.toNat + 10)
  else none

/-- Node `Buffer.from(s, 'hex')`: bytes from pairs of hex digits, stopping at
the first invalid pair or dangling digit. -/
def decodeHexAux : List Char → List Nat
  | h :: l :: rest =>
      match hexVal h, hexVal l with
      | some hv, some lv => (16 * hv + lv) :: decodeHexAux rest
      | _, _ => []
  | _ => []

/-- Hex decoding of a string, Node `Buffer.from(·, 'hex')` semantics. -/
def decodeHex (s : String) : List Nat := decodeHexAux s.data

/-- Model of `timingSafeEqualHex` (util/crypto.mjs): decode both hex strings,
reject on length mismatch, else constant-time byte equality. -/
def timingSafeEqualHex (a b : String) : Bool :=
  let x := decodeHex a
  let y := decodeHex b
  x.length == y.length && x == y

/-- Parsed shape of a webhook payload after `JSON.parse` and the
extractions of webhook.mjs: `event.type`, `data.metadata.order_id`,
`data.id`, `data.code`; `none` models an absent or falsy field. -/
structure Payload where
  eventType : Option String
  orderId : Option String
  chargeId : Option String
  code : Option String
deriving DecidableEq, Repr

/-- Model of `findOrder` (webhook.mjs): try the embedded order id, then the
provider charge id, then the provider code; first hit wins. -/
def findOrder (orders : List Order) (p : Payload) : Option Order :=
  ((p.orderId.bind fun oid => orders.find? fun o => o.orderId == oid).or
    (((p.chargeId.bind fun cid =>
        orders.find? fun o => o.coinbaseChargeId == some cid).or
      (p.code.bind fun c => orders.find? fun o => o.coinbaseCode == some c))))

/-- The per-row effect of
`UPDATE orders SET status = ?, updated_at = ? WHERE order_id = ?`. -/
def stampFun (oid et : String) (now : Nat) (o : Order) : Order :=
  if o.orderId = oid then { o with status := et, updatedAt := now } else o

/-- Statement `UPDATE orders SET status = ?, updated_at = ? WHERE order_id = ?`. -/
def stampStatus (orders : List Order) (oid et : String) (now : Nat) :
    List Order :=
  orders.map (stampFun oid et now)

/-- The per-row effect of
`UPDATE orders SET fulfilled_at = ?, updated_at = ? WHERE order_id = ?`. -/
def markFun (oid : String) (now : Nat) (o : Order) : Order :=
  if o.orderId = oid then
    { o with fulfilledAt := some now, updatedAt := now }
  else o

/-- Statement `UPDATE orders SET fulfilled_at = ?, updated_at = ? WHERE order_id = ?`. -/
def markFulfilled (orders : List Order) (oid : String) (now : Nat) :
    List Order :=
  orders.map (markFun oid now)

/-- The post-verification part of the webhook handler (webhook.mjs, from
the parsed payload on).  Every path replies 200 `{ok:true}`; the value is
the resulting store.  `txId` stands for the `randomUUID` of the grant. -/
def processEvent (env : Env) (now : Nat) (txId : String) (p : Payload)
    (db : Db) : Db :=
  match p.eventType with
  | none => db
  | some et =>
    match findOrder db.orders p with
    | none => db
    | some order =>
      let db := { db with orders := stampStatus db.orders order.orderId et now }
      if et ∈ env.fulfillOnEvents then
        if order.fulfilledAt.isSome then db
        else
          match SKU_CATALOG order.sku with
          | none => db
          | some item =>
              -- db.transaction: grant and mark fulfilled atomically
              let db := grantForSku db now txId order.userId order.sku item
              { db with orders := markFulfilled db.orders order.orderId now }
      else db

/-- The `POST /commerce/webhook` handler (webhook.mjs).  `hmac` stands for
the imported `hmacSha256Hex` and `parse` for `JSON.parse` plus the field
extraction; `rawBody` is `none` when `req.body` is not a Buffer and
`sigHeader` is `none` when the header is missing or not a string.  The
result is the HTTP status and the resulting store; all post-verification
paths reply 200. -/
def webhookRespond (hmac : String → List Nat → String)
    (parse : List Nat → Option Payload) (env : Env) (now : Nat)
    (txId : String) (rawBody : Option (List Nat)) (sigHeader : Option String)
    (db : Db) : Nat × Db :=
  match rawBody with
  | none => (400, db)
  | some raw =>
    match sigHeader with
    | none => (400, db)
    | some sig =>
      if env.coinbaseWebhookSecret = "" then (501, db)
      else if ¬ timingSafeEqualHex (hmac env.coinbaseWebhookSecret raw) sig then
        (401, db)
      else
        match parse raw with
        | none => (400, db)
        | some p => (200, processEvent env now txId p db)

/-- Sequential webhook deliveries: each element carries that delivery's
wall-clock time, grant transaction id and verified payload. -/
def deliverAll (env : Env) : List (Nat × String × Payload) → Db → Db
  | [], db => db
  | (now, txId, p) :: rest, db => deliverAll env rest (processEvent env now txId p db)

/-! ## Charge creation (`src/server/api.mjs`, `commerce/coinbase.mjs`) -/

/-- The fields the handler extracts from a successful provider response
(`charge?.data?.hosted_url || charge?.hosted_url` and likewise for `id`
and `code`); `none` models an absent or falsy value. -/
structure ChargeResp where
  hostedUrl : Option String
  id : Option String
  code : Option String
deriving DecidableEq, Repr

/-- Outcome of `POST /commerce/create-charge` after authentication. -/
inductive ChargeHandlerResp where
  /-- 501, provider not configured -/
  | notConfigured
  /-- 400, sku missing or unknown -/
  | badSku
  /-- 502, provider call threw or its response lacked hosted_url or id -/
  | upstreamFailure
  /-- 200, `{ok, hostedUrl, orderId}` -/
  | ok (hostedUrl orderId : String)
deriving DecidableEq, Repr

/-- The `POST /commerce/create-charge` handler (api.mjs) after
authentication.  `chargeResult` is the outcome of the `createCharge` call:
`none` when it threw (`coinbase.mjs` throws on any non-ok HTTP status),
`some c` its extracted fields otherwise.  The Order row is inserted only
after a successful call carrying both a hosted_url and a charge id. -/
def createChargeHandler (env : Env) (uid : String) (skuBody : Option String)
    (chargeResult : Option ChargeResp) (orderId : String) (now : Nat)
    (db : Db) : ChargeHandlerResp × Db :=
  if env.coinbaseApiKey = "" then (.notConfigured, db)
  else
    match skuBody with
    | none => (.badSku, db)
    | some sku =>
      match SKU_CATALOG sku with
      | none => (.badSku, db)
      | some item =>
        match chargeResult with
        | none => (.upstreamFailure, db)
        | some c =>
          match c.hostedUrl, c.id with
          | some hostedUrl, some chargeId =>
              let db := { db with orders := db.orders ++
                  [⟨orderId, uid, sku, item.usd, some chargeId, c.code,
                    some hostedUrl, "created", now, now, none⟩] }
              (.ok hostedUrl orderId, db)
          | _, _ => (.upstreamFailure, db)

/-! ## Basic lemmas about the ledger operations -/

theorem setWallet_self (db : Db) (uid : String) (w : Wallet) :
    (setWallet db uid w).wallets uid = some w := by
  simp [setWallet]

theorem setWallet_other (db : Db) (uid u : String) (w : Wallet)
    (h : u ≠ uid) : (setWallet db uid w).wallets u = db.wallets u := by
  simp [setWallet, h]

theorem ensureWallet_self (db : Db) (uid : String) :
    (ensureWallet db uid).wallets uid =
      some ((db.wallets uid).getD emptyWallet) := by
  unfold ensureWallet
  cases h : db.wallets uid <;> simp [h, setWallet_self]

theorem ensureWallet_other (db : Db) (uid u : String) (h : u ≠ uid) :
    (ensureWallet db uid).wallets u = db.wallets u := by
  unfold ensureWallet
  cases hw : db.wallets uid <;> simp [hw, setWallet_other _ _ _ _ h]

theorem ensureWallet_orders (db : Db) (uid : String) :
    (ensureWallet db uid).orders = db.orders := by
  unfold ensureWallet; cases db.wallets uid <;> simp [setWallet]

theorem ensureWallet_transactions (db : Db) (uid : String) :
    (ensureWallet db uid).transactions = db.transactions := by
  unfold ensureWallet; cases db.wallets uid <;> simp [setWallet]

theorem ensureWallet_playSessions (db : Db) (uid : String) :
    (ensureWallet db uid).playSessions = db.playSessions := by
  unfold ensureWallet; cases db.wallets uid <;> simp [setWallet]


/-- Closed form of the wallet row that `grantForSku` leaves for the
granted user. -/
def grantWalletResult (now : Nat) (item : CatalogItem) (w0 : Wallet) :
    Wallet :=
  let w1 : Wallet :=
    if 0 < (item.grantCredits : Int) then
      { w0 with credits := w0.credits + (item.grantCredits : Int) }
    else w0
  if 0 < item.passMinutes then
    let base := w1.passExpiresAt.getD now
    let start := if now < base then base else now
    { w1 with passExpiresAt := some (start + item.passMinutes * 60000) }
  else w1

theorem grantForSku_wallets_self (db : Db) (now : Nat)
    (txId uid sku : String) (item : CatalogItem) :
    (grantForSku db now txId uid sku item).wallets uid =
      some (grantWalletResult now item ((db.wallets uid).getD emptyWallet)) := by
  unfold grantForSku grantWalletResult
  by_cases hc : 0 < (item.grantCredits : Int) <;>
    by_cases hp : 0 < item.passMinutes <;>
    cases h : db.wallets uid <;>
    simp only [ensureWallet, setWallet, h, hc, hp, Option.getD, if_true, if_false,
      reduceCtorEq, if_pos, ite_true, ite_false] <;>
    simp [hc, hp, emptyWallet] <;>
    rename_i w <;> cases hpe : w.passExpiresAt <;> simp [hpe]

theorem grantForSku_wallets_other (db : Db) (now : Nat)
    (txId uid sku : String) (item : CatalogItem) (u : String) (h : u ≠ uid) :
    (grantForSku db now txId uid sku item).wallets u = db.wallets u := by
  unfold grantForSku
  by_cases hc : 0 < (item.grantCredits : Int) <;>
    by_cases hp : 0 < item.passMinutes <;>
    cases hw : db.wallets uid <;>
    simp only [ensureWallet, setWallet, hw, hc, hp] <;>
    simp [hc, hp, h, emptyWallet] <;>
    first
    | rfl
    | (rename_i w; cases hpe : w.passExpiresAt <;> simp [hpe, hw, h])

theorem grantForSku_transactions (db : Db) (now : Nat)
    (txId uid sku : String) (item : CatalogItem) :
    (grantForSku db now txId uid sku item).transactions =
      db.transactions ++
        [⟨txId, uid, "purchase", some sku, (item.grantCredits : Int), now⟩] := by
  unfold grantForSku
  by_cases hc : 0 < (item.grantCredits : Int) <;>
    by_cases hp : 0 < item.passMinutes <;>
    cases hw : db.wallets uid <;>
    simp only [ensureWallet, setWallet, hw, hc, hp] <;>
    simp [hc, hp, emptyWallet] <;>
    first
    | rfl
    | (rename_i w; cases hpe : w.passExpiresAt <;> simp [hpe, hw])

theorem grantForSku_orders (db : Db) (now : Nat) (txId uid sku : String)
    (item : CatalogItem) :
    (grantForSku db now txId uid sku item).orders = db.orders := by
  unfold grantForSku
  by_cases hc : 0 < (item.grantCredits : Int) <;>
    by_cases hp : 0 < item.passMinutes <;>
    cases hw : db.wallets uid <;>
    simp only [ensureWallet, setWallet, hw, hc, hp] <;>
    simp [hc, hp, emptyWallet] <;>
    first
    | rfl
    | (rename_i w; cases hpe : w.passExpiresAt <;> simp [hpe, hw])

theorem grantForSku_playSessions (db : Db) (now : Nat) (txId uid sku : String)
    (item : CatalogItem) :
    (grantForSku db now txId uid sku item).playSessions = db.playSessions := by
  unfold grantForSku
  by_cases hc : 0 < (item.grantCredits : Int) <;>
    by_cases hp : 0 < item.passMinutes <;>
    cases hw : db.wallets uid <;>
    simp only [ensureWallet, setWallet, hw, hc, hp] <;>
    simp [hc, hp, emptyWallet] <;>
    first
    | rfl
    | (rename_i w; cases hpe : w.passExpiresAt <;> simp [hpe, hw])

theorem consumeCredit_fst (db : Db) (uid : String) :
    (consumeCredit db uid).1 = decide (1 ≤ creditsOf db uid) := by
  unfold consumeCredit creditsOf
  cases h : db.wallets uid <;>
    simp [ensureWallet, h, setWallet, emptyWallet] <;>
    split <;> simp_all

theorem consumeCredit_credits_self (db : Db) (uid : String) :
    creditsOf (consumeCredit db uid).2 uid =
      if 1 ≤ creditsOf db uid then creditsOf db uid - 1
      else creditsOf db uid := by
  unfold consumeCredit creditsOf
  cases h : db.wallets uid <;>
    simp [ensureWallet, h, setWallet, emptyWallet] <;>
    split <;> simp_all [setWallet]

theorem consumeCredit_pass_self (db : Db) (uid : String) :
    passOf (consumeCredit db uid).2 uid = passOf db uid := by
  unfold consumeCredit passOf
  cases h : db.wallets uid <;>
    simp [ensureWallet, h, setWallet, emptyWallet] <;>
    split <;> simp_all [setWallet]

theorem consumeCredit_wallets_other (db : Db) (uid u : String) (h : u ≠ uid) :
    (consumeCredit db uid).2.wallets u = db.wallets u := by
  unfold consumeCredit
  cases hw : db.wallets uid <;>
    simp [ensureWallet, hw, setWallet, h] <;>
    split <;> simp_all [setWallet, h]

theorem consumeCredit_rest (db : Db) (uid : String) :
    (consumeCredit db uid).2.orders = db.orders
    ∧ (consumeCredit db uid).2.transactions = db.transactions
    ∧ (consumeCredit db uid).2.playSessions = db.playSessions := by
  unfold consumeCredit
  cases hw : db.wallets uid <;>
    simp [ensureWallet, hw, setWallet] <;>
    split <;> simp_all [setWallet]

theorem walletsNonneg_setWallet (db : Db) (uid : String) (w : Wallet)
    (h : WalletsNonneg db) (hw : 0 ≤ w.credits) :
    WalletsNonneg (setWallet db uid w) := by
  intro u w' hu
  simp only [setWallet] at hu
  by_cases he : u = uid
  · simp [he] at hu; exact hu ▸ hw
  · simp [he] at hu; exact h u w' hu

theorem walletsNonneg_ensureWallet (db : Db) (uid : String)
    (h : WalletsNonneg db) : WalletsNonneg (ensureWallet db uid) := by
  unfold ensureWallet
  cases hw : db.wallets uid
  · exact walletsNonneg_setWallet db uid emptyWallet h (by simp [emptyWallet])
  · exact h

theorem walletsNonneg_consumeCredit (db : Db) (uid : String)
    (h : WalletsNonneg db) : WalletsNonneg (consumeCredit db uid).2 := by
  unfold consumeCredit
  have he := walletsNonneg_ensureWallet db uid h
  cases hw : (ensureWallet db uid).wallets uid
  · simpa [hw] using he
  · rename_i w
    have hwc : 0 ≤ w.credits := he uid w hw
    by_cases hc : 1 ≤ w.credits
    · simpa [hw, hc] using
        walletsNonneg_setWallet _ uid { w with credits := w.credits - 1 } he
          (by simp; omega)
    · simpa [hw, hc] using he

theorem grantWalletResult_credits_nonneg (now : Nat) (item : CatalogItem)
    (w0 : Wallet) (h : 0 ≤ w0.credits) :
    0 ≤ (grantWalletResult now item w0).credits := by
  unfold grantWalletResult
  split_ifs <;> simp <;> omega

theorem walletsNonneg_grantForSku (db : Db) (now : Nat)
    (txId uid sku : String) (item : CatalogItem) (h : WalletsNonneg db) :
    WalletsNonneg (grantForSku db now txId uid sku item) := by
  intro u w' hu
  by_cases he : u = uid
  · subst he
    rw [grantForSku_wallets_self] at hu
    cases hu
    apply grantWalletResult_credits_nonneg
    cases hw : db.wallets u
    · simp [hw, emptyWallet]
    · simpa [hw] using h u _ hw
  · rw [grantForSku_wallets_other db now txId uid sku item u he] at hu
    exact h u w' hu

theorem ensureWallet_idem (db : Db) (uid : String) :
    ensureWallet (ensureWallet db uid) uid = ensureWallet db uid := by
  conv_lhs => rw [ensureWallet.eq_def, ensureWallet_self]

/-- Branch of `POST /play/start`: missing or non-string `gameId`. -/
theorem startSession_badRequest_none (now : Nat) (uid tok txId : String)
    (db : Db) : startSession now uid none tok txId db = (.badRequest, db) := by
  rfl

/-- Branch of `POST /play/start`: `gameId` blank after trimming. -/
theorem startSession_badRequest_blank (now : Nat) (uid g tok txId : String)
    (db : Db) (hg : jsTrim g = "") :
    startSession now uid (some g) tok txId db = (.badRequest, db) := by
  simp [startSession, hg]

/-- Branch of `POST /play/start`: the exclusivity pre-check fires. -/
theorem startSession_active (now : Nat) (uid g tok txId : String) (db : Db)
    (hg : jsTrim g ≠ "")
    (hex : db.playSessions.any
      (fun s => s.userId == uid && decide (now < s.expiresAt)) = true) :
    startSession now uid (some g) tok txId db = (.activeSessionExists, db) := by
  simp [startSession, hg, hex]

/-- Branch of `POST /play/start`: pass-mode success. -/
theorem startSession_pass (now : Nat) (uid g tok txId : String) (db : Db)
    (hg : jsTrim g ≠ "")
    (hex : db.playSessions.any
      (fun s => s.userId == uid && decide (now < s.expiresAt)) = false)
    (hp : hasActivePass now ((db.wallets uid).getD emptyWallet) = true) :
    startSession now uid (some g) tok txId db =
      (.ok tok "pass" (now + PLAY_SESSION_DURATION_MS),
       { orders := db.orders,
         wallets := (ensureWallet db uid).wallets,
         transactions := db.transactions ++
           [⟨txId, uid, "play", none, 0, now⟩],
         playSessions := db.playSessions ++
           [⟨tok, uid, jsTrim g, "pass", now + PLAY_SESSION_DURATION_MS, now⟩] }) := by
  simp [startSession, hg, hex, getWallet, ensureWallet_self, hp,
    recordPlayTransaction, ensureWallet_transactions, ensureWallet_playSessions,
    ensureWallet_orders]

/-- Branch of `POST /play/start`: credit-mode success. -/
theorem startSession_credit (now : Nat) (uid g tok txId : String) (db : Db)
    (hg : jsTrim g ≠ "")
    (hex : db.playSessions.any
      (fun s => s.userId == uid && decide (now < s.expiresAt)) = false)
    (hp : hasActivePass now ((db.wallets uid).getD emptyWallet) = false)
    (hc : 1 ≤ ((db.wallets uid).getD emptyWallet).credits) :
    startSession now uid (some g) tok txId db =
      (.ok tok "credit" (now + PLAY_SESSION_DURATION_MS),
       { orders := db.orders,
         wallets := (setWallet (ensureWallet db uid) uid
           { (db.wallets uid).getD emptyWallet with
             credits := ((db.wallets uid).getD emptyWallet).credits - 1 }).wallets,
         transactions := db.transactions ++
           [⟨txId, uid, "play", none, -1, now⟩],
         playSessions := db.playSessions ++
           [⟨tok, uid, jsTrim g, "credit", now + PLAY_SESSION_DURATION_MS, now⟩] }) := by
  simp only [startSession, hg, hex, getWallet, ensureWallet_self, hp,
    Option.getD_some, Bool.false_eq_true, if_false, ite_false, if_pos hc]
  simp [consumeCredit, ensureWallet_idem, ensureWallet_self, if_pos hc,
    recordPlayTransaction, setWallet, ensureWallet_transactions,
    ensureWallet_playSessions, ensureWallet_orders, hc]

/-- Branch of `POST /play/start`: insufficient credits. -/
theorem startSession_insufficient (now : Nat) (uid g tok txId : String)
    (db : Db) (hg : jsTrim g ≠ "")
    (hex : db.playSessions.any
      (fun s => s.userId == uid && decide (now < s.expiresAt)) = false)
    (hp : hasActivePass now ((db.wallets uid).getD emptyWallet) = false)
    (hc : ¬ 1 ≤ ((db.wallets uid).getD emptyWallet).credits) :
    startSession now uid (some g) tok txId db =
      (.insufficientCredits, ensureWallet db uid) := by
  simp [startSession, hg, hex, getWallet, ensureWallet_self, hp, hc]

theorem walletsNonneg_startSession (now : Nat) (uid : String)
    (gameId : Option String) (tok txId : String) (db : Db)
    (h : WalletsNonneg db) :
    WalletsNonneg (startSession now uid gameId tok txId db).2 := by
  match gameId with
  | none => rw [startSession_badRequest_none]; exact h
  | some g =>
    by_cases hg : jsTrim g = ""
    · rw [startSession_badRequest_blank now uid g tok txId db hg]; exact h
    · cases hex : db.playSessions.any
        (fun s => s.userId == uid && decide (now < s.expiresAt))
      · by_cases hp : hasActivePass now ((db.wallets uid).getD emptyWallet) = true
        · rw [startSession_pass now uid g tok txId db hg hex hp]
          intro u w hu
          exact walletsNonneg_ensureWallet db uid h u w hu
        · rw [Bool.not_eq_true] at hp
          by_cases hc : 1 ≤ ((db.wallets uid).getD emptyWallet).credits
          · rw [startSession_credit now uid g tok txId db hg hex hp hc]
            intro u w hu
            refine walletsNonneg_setWallet (ensureWallet db uid) uid _
              (walletsNonneg_ensureWallet db uid h) ?_ u w hu
            have h0 : 0 ≤ ((db.wallets uid).getD emptyWallet).credits := by
              cases hw : db.wallets uid
              · simp [hw, emptyWallet]
              · simpa [hw] using h uid _ hw
            simp; omega
          · rw [startSession_insufficient now uid g tok txId db hg hex hp hc]
            exact walletsNonneg_ensureWallet db uid h
      · rw [startSession_active now uid g tok txId db hg hex]; exact h

/-- The number of successes among `n` sequential `consumeCredit` calls for
one user, together with the resulting store. -/
def consumeN : Nat → Db → String → Nat × Db
  | 0, db, _ => (0, db)
  | n + 1, db, uid =>
      let r := consumeCredit db uid
      let rest := consumeN n r.2 uid
      ((if r.1 then 1 else 0) + rest.1, rest.2)

theorem consumeN_le_credits (uid : String) :
    ∀ (n : Nat) (db : Db), WalletsNonneg db →
      ((consumeN n db uid).1 : Int) ≤ creditsOf db uid := by
  intro n
  induction n with
  | zero =>
      intro db h
      have : 0 ≤ creditsOf db uid := by
        cases hw : db.wallets uid
        · simp [creditsOf, hw, emptyWallet]
        · simpa [creditsOf, hw] using h uid _ hw
      simpa [consumeN] using this
  | succ n ih =>
      intro db h
      have hrec := ih (consumeCredit db uid).2 (walletsNonneg_consumeCredit db uid h)
      have hcr := consumeCredit_credits_self db uid
      have hfst := consumeCredit_fst db uid
      by_cases hc : 1 ≤ creditsOf db uid
      · simp only [consumeN, hfst, decide_eq_true_eq]
        rw [if_pos hc]
        rw [hcr, if_pos hc] at hrec
        push_cast
        omega
      · simp only [consumeN, hfst, decide_eq_true_eq]
        rw [if_neg hc]
        rw [hcr, if_neg hc] at hrec
        push_cast
        omega

theorem grantWalletResult_pass (now : Nat) (item : CatalogItem) (w0 : Wallet)
    (hP : 0 < item.passMinutes) :
    (grantWalletResult now item w0).passExpiresAt =
      some ((if now < w0.passExpiresAt.getD now then w0.passExpiresAt.getD now
             else now) + item.passMinutes * 60000) := by
  unfold grantWalletResult
  by_cases hc : 0 < (item.grantCredits : Int) <;> simp [hc, hP]

theorem grantForSku_pass_self (db : Db) (now : Nat) (txId uid sku : String)
    (item : CatalogItem) :
    passOf (grantForSku db now txId uid sku item) uid =
      (grantWalletResult now item ((db.wallets uid).getD emptyWallet)).passExpiresAt := by
  simp [passOf, grantForSku_wallets_self]

/-- Claim C3.  Credit consumption never drives a balance negative:
`consumeCredit` succeeds exactly when the wallet holds at least one credit,
decrements the balance by exactly one on success and leaves it unchanged on
failure; non-negativity of every wallet balance is preserved by every
ledger operation (`ensureWallet`/`getWallet`, `grantForSku`,
`consumeCredit`, `startSession`); and starting from `C` credits at most
`C` sequential `consumeCredit` calls succeed. -/
theorem consumeCredit_spec (db : Db) (uid : String) :
    ((consumeCredit db uid).1 = true ↔ 1 ≤ creditsOf db uid)
    ∧ ((consumeCredit db uid).1 = true →
        creditsOf (consumeCredit db uid).2 uid = creditsOf db uid - 1)
    ∧ ((consumeCredit db uid).1 = false →
        creditsOf (consumeCredit db uid).2 uid = creditsOf db uid)
    ∧ (WalletsNonneg db →
        WalletsNonneg (ensureWallet db uid)
        ∧ WalletsNonneg (consumeCredit db uid).2
        ∧ (∀ now txId sku item,
            WalletsNonneg (grantForSku db now txId uid sku item))
        ∧ (∀ now gameId tok txId,
            WalletsNonneg (startSession now uid gameId tok txId db).2))
    ∧ (∀ n, WalletsNonneg db →
        ((consumeN n db uid).1 : Int) ≤ creditsOf db uid) := by
  refine ⟨?_, ?_, ?_, ?_, ?_⟩
  · rw [consumeCredit_fst]; simp
  · intro h
    rw [consumeCredit_fst, decide_eq_true_eq] at h
    rw [consumeCredit_credits_self, if_pos h]
  · intro h
    rw [consumeCredit_fst] at h
    have h' : ¬ 1 ≤ creditsOf db uid := by simpa using h
    rw [consumeCredit_credits_self, if_neg h']
  · intro h
    exact ⟨walletsNonneg_ensureWallet db uid h,
      walletsNonneg_consumeCredit db uid h,
      fun now txId sku item => walletsNonneg_grantForSku db now txId uid sku item h,
      fun now gameId tok txId =>
        walletsNonneg_startSession now uid gameId tok txId db h⟩
  · intro n h
    exact consumeN_le_credits uid n db h

/-- A concrete store holding one wallet with two credits. -/
def dbTwoCredits : Db :=
  ⟨[], fun u => if u = "u1" then some ⟨2, none⟩ else none, [], []⟩

theorem walletsNonneg_dbTwoCredits : WalletsNonneg dbTwoCredits := by
  intro u w h
  by_cases hu : u = "u1" <;> simp [dbTwoCredits, hu] at h
  rw [← h]
  decide

theorem consumeCredit_spec_witness :
    1 ≤ creditsOf dbTwoCredits "u1"
    ∧ (consumeCredit dbTwoCredits "u1").1 = true
    ∧ creditsOf (consumeCredit dbTwoCredits "u1").2 "u1" = 1
    ∧ WalletsNonneg dbTwoCredits
    ∧ ((consumeN 5 dbTwoCredits "u1").1 : Int) ≤ creditsOf dbTwoCredits "u1" := by
  have h := consumeCredit_spec dbTwoCredits "u1"
  have h1 : (consumeCredit dbTwoCredits "u1").1 = true := h.1.mpr (by decide)
  refine ⟨by decide, h1, ?_, walletsNonneg_dbTwoCredits,
    h.2.2.2.2 5 walletsNonneg_dbTwoCredits⟩
  rw [h.2.1 h1]
  decide

/-- Claim C4.  Pass stacking arithmetic: for every grant of an item with
`passMinutes = P > 0`, when the wallet's pass expiry is present and
strictly in the future at `T` the new expiry is `T + P` minutes, and when
it is absent or not in the future the new expiry is `now + P` minutes —
remaining pass time is never lost. -/
theorem grant_pass_stacking (db : Db) (now : Nat) (txId uid sku : String)
    (item : CatalogItem) (hP : 0 < item.passMinutes) :
    (∀ T, passOf db uid = some T → now < T →
        passOf (grantForSku db now txId uid sku item) uid =
          some (T + item.passMinutes * 60000))
    ∧ (∀ T, passOf db uid = some T → ¬ now < T →
        passOf (grantForSku db now txId uid sku item) uid =
          some (now + item.passMinutes * 60000))
    ∧ (passOf db uid = none →
        passOf (grantForSku db now txId uid sku item) uid =
          some (now + item.passMinutes * 60000)) := by
  have hself := grantForSku_pass_self db now txId uid sku item
  have hpass := grantWalletResult_pass now item
    ((db.wallets uid).getD emptyWallet) hP
  refine ⟨?_, ?_, ?_⟩
  · intro T hT hnow
    have hT' : ((db.wallets uid).getD emptyWallet).passExpiresAt = some T := hT
    rw [hself, hpass, hT']
    simp [if_pos hnow]
  · intro T hT hnow
    have hT' : ((db.wallets uid).getD emptyWallet).passExpiresAt = some T := hT
    rw [hself, hpass, hT']
    simp [if_neg hnow]
  · intro hT
    have hT' : ((db.wallets uid).getD emptyWallet).passExpiresAt = none := hT
    rw [hself, hpass, hT']
    simp

/-- A concrete store holding one wallet with no credits and a pass that
expires at time 500. -/
def dbPass : Db :=
  ⟨[], fun u => if u = "u1" then some ⟨0, some 500⟩ else none, [], []⟩

/-- The `PASS_60_MIN` catalog item. -/
def itemPass : CatalogItem := ⟨"7.00", "Play Pass (60 min)", 0, 60⟩

theorem grant_pass_stacking_witness :
    0 < itemPass.passMinutes
    ∧ passOf dbPass "u1" = some 500
    ∧ (100 : Nat) < 500
    ∧ passOf (grantForSku dbPass 100 "t1" "u1" "PASS_60_MIN" itemPass) "u1" =
        some (500 + itemPass.passMinutes * 60000) :=
  ⟨by decide, by decide, by decide,
    (grant_pass_stacking dbPass 100 "t1" "u1" "PASS_60_MIN" itemPass
      (by decide)).1 500 (by decide) (by decide)⟩

/-- Claim C5.  Sequential session exclusivity: while the user has an
unexpired PlaySession, `POST /play/start` with a valid gameId returns
ACTIVE_SESSION_EXISTS and leaves the store — sessions, transactions and
the wallet — exactly as it was. -/
theorem startSession_exclusivity (now : Nat) (uid g tok txId : String)
    (db : Db) (hg : jsTrim g ≠ "")
    (hex : ∃ s ∈ db.playSessions, s.userId = uid ∧ now < s.expiresAt) :
    startSession now uid (some g) tok txId db = (.activeSessionExists, db) := by
  apply startSession_active now uid g tok txId db hg
  rw [List.any_eq_true]
  obtain ⟨s, hs, hu, ht⟩ := hex
  exact ⟨s, hs, by simp [hu, ht]⟩

/-- A concrete store with one wallet and one play session for user `u1`
expiring at time 1000. -/
def dbSession : Db :=
  ⟨[], fun u => if u = "u1" then some ⟨3, none⟩ else none, [],
   [⟨"tokA", "u1", "flappy", "credit", 1000, 0⟩]⟩

theorem startSession_exclusivity_witness :
    (jsTrim "breakout" ≠ ""
      ∧ ∃ s ∈ dbSession.playSessions, s.userId = "u1" ∧ 500 < s.expiresAt)
    ∧ startSession 500 "u1" (some "breakout") "tokB" "txB" dbSession =
        (.activeSessionExists, dbSession) :=
  ⟨⟨by decide, ⟨"tokA", "u1", "flappy", "credit", 1000, 0⟩, by simp [dbSession],
      by decide, by decide⟩,
    startSession_exclusivity 500 "u1" "breakout" "tokB" "txB" dbSession
      (by decide)
      ⟨⟨"tokA", "u1", "flappy", "credit", 1000, 0⟩, by simp [dbSession],
        by decide, by decide⟩⟩

/-- A store with no rows at all. -/
def emptyDb : Db := ⟨[], fun _ => none, [], []⟩

/-- Counterexample to claim C6 as stated: the empty string is a token that
was never issued (the store holds no session at all), yet `GET
/play/verify` answers 400 `token query parameter is required.`, not
INVALID_TOKEN. -/
theorem verify_blank_token_counterexample :
    emptyDb.playSessions = []
    ∧ verifyToken 0 (some "") emptyDb = VerifyResp.badRequest
    ∧ verifyToken 0 (some "") emptyDb ≠ VerifyResp.invalidToken := by
  refine ⟨rfl, rfl, by decide⟩

/-- Claim C6 (amended).  `verify` is read-only; a missing or blank
(whitespace-only) token is answered 400; a non-blank token is trimmed and
looked up: with no stored session for the trimmed token the answer is
INVALID_TOKEN, with a stored session whose `expires_at ≤ now` it is
TOKEN_EXPIRED, and otherwise it is `ok` with the session's original
gameId, mode and expiresAt — sessions are never refreshed or extended. -/
theorem verify_lifecycle (now : Nat) (t : String) (db : Db) :
    ((verifyHandler now (some t) db).2 = db)
    ∧ (jsTrim t = "" → verifyToken now (some t) db = .badRequest)
    ∧ (jsTrim t ≠ "" →
        db.playSessions.find? (fun s => s.playToken == jsTrim t) = none →
        verifyToken now (some t) db = .invalidToken)
    ∧ (∀ s, jsTrim t ≠ "" →
        db.playSessions.find? (fun r => r.playToken == jsTrim t) = some s →
        ((s.expiresAt ≤ now → verifyToken now (some t) db = .tokenExpired)
         ∧ (now < s.expiresAt →
            verifyToken now (some t) db = .ok s.gameId s.mode s.expiresAt))) := by
  refine ⟨rfl, ?_, ?_, ?_⟩
  · intro h; simp [verifyToken, h]
  · intro h hf; simp [verifyToken, h, hf]
  · intro s h hf
    constructor
    · intro he; simp [verifyToken, h, hf, he]
    · intro he
      simp [verifyToken, h, hf, Nat.not_le.mpr he]

theorem verify_lifecycle_witness :
    (jsTrim "tokA" ≠ ""
      ∧ dbSession.playSessions.find?
          (fun r => r.playToken == jsTrim "tokA") =
        some ⟨"tokA", "u1", "flappy", "credit", 1000, 0⟩
      ∧ (5 : Nat) < 1000)
    ∧ verifyToken 5 (some "tokA") dbSession =
        .ok "flappy" "credit" 1000 :=
  ⟨⟨by decide, by rfl, by decide⟩,
    ((verify_lifecycle 5 "tokA" dbSession).2.2.2
      ⟨"tokA", "u1", "flappy", "credit", 1000, 0⟩ (by decide) (by rfl)).2
      (by decide)⟩

/-- Claim C8.  The advisory `POST /play/end` endpoint never changes any
session: every issued token's `expires_at` is untouched and `verify`
answers identically before and after any `/play/end` request, so token TTL
alone ends access. -/
theorem playEnd_advisory (tok : Option String) (db : Db) :
    (playEnd tok db).2.playSessions = db.playSessions
    ∧ (playEnd tok db).2 = db
    ∧ (∀ now t, verifyToken now t (playEnd tok db).2 = verifyToken now t db) := by
  exact ⟨rfl, rfl, fun _ _ => rfl⟩

/-- Claim C9.  Charge-creation atomicity: with the provider configured and
a valid sku, a provider call that throws, or whose response lacks a
hosted_url or a charge id, yields 502 with the store — orders, wallets,
transactions, sessions — exactly as it was; an Order row is appended only
after a successful call carrying both, and then with status `created` and
no `fulfilled_at`. -/
theorem createCharge_atomicity (env : Env) (uid sku : String)
    (item : CatalogItem) (chargeResult : Option ChargeResp)
    (orderId : String) (now : Nat) (db : Db)
    (hkey : env.coinbaseApiKey ≠ "") (hsku : SKU_CATALOG sku = some item) :
    (chargeResult = none →
        createChargeHandler env uid (some sku) chargeResult orderId now db =
          (.upstreamFailure, db))
    ∧ (∀ c, chargeResult = some c → (c.hostedUrl = none ∨ c.id = none) →
        createChargeHandler env uid (some sku) chargeResult orderId now db =
          (.upstreamFailure, db))
    ∧ (∀ c hostedUrl chargeId, chargeResult = some c →
        c.hostedUrl = some hostedUrl → c.id = some chargeId →
        createChargeHandler env uid (some sku) chargeResult orderId now db =
          (.ok hostedUrl orderId,
           { db with orders := db.orders ++
               [⟨orderId, uid, sku, item.usd, some chargeId, c.code,
                 some hostedUrl, "created", now, now, none⟩] })) := by
  refine ⟨?_, ?_, ?_⟩
  · intro h
    simp [createChargeHandler, hkey, hsku, h]
  · intro c hc hmiss
    subst hc
    rcases hmiss with h | h <;>
      · cases hu : c.hostedUrl <;> cases hid : c.id <;>
          simp_all [createChargeHandler, hkey, hsku]
  · intro c hostedUrl chargeId hc hu hid
    subst hc
    simp [createChargeHandler, hkey, hsku, hu, hid]

/-- An environment with both provider credentials configured. -/
def envConfigured : Env := ⟨"api-key", "whsec", ["charge:confirmed"]⟩

theorem createCharge_atomicity_witness :
    (envConfigured.coinbaseApiKey ≠ ""
      ∧ SKU_CATALOG "CREDITS_10" = some ⟨"5.00", "10 Credits", 10, 0⟩)
    ∧ createChargeHandler envConfigured "u1" (some "CREDITS_10") none
        "ord1" 42 emptyDb = (.upstreamFailure, emptyDb) :=
  ⟨⟨by decide, by rfl⟩,
    (createCharge_atomicity envConfigured "u1" "CREDITS_10"
      ⟨"5.00", "10 Credits", 10, 0⟩ none "ord1" 42 emptyDb
      (by decide) (by rfl)).1 rfl⟩

/-- A concrete store holding one wallet with exactly one credit and no
pass, and no sessions. -/
def dbOneCredit : Db :=
  ⟨[], fun u => if u = "u1" then some ⟨1, none⟩ else none, [], []⟩

/-- Counterexample to claim C7 as stated: with 1 credit, no pass and no
session, two back-to-back `POST /play/start` calls give `ok` then
ACTIVE_SESSION_EXISTS (409) — not INSUFFICIENT_CREDITS — because the first
call's session is still unexpired at the second call; the balance is
nevertheless 0. -/
theorem scenarioB_counterexample :
    (startSession 0 "u1" (some "flappy") "tokA" "txA" dbOneCredit).1 =
      .ok "tokA" "credit" 300000
    ∧ (startSession 1 "u1" (some "flappy") "tokB" "txB"
        (startSession 0 "u1" (some "flappy") "tokA" "txA" dbOneCredit).2).1 =
      .activeSessionExists
    ∧ (startSession 1 "u1" (some "flappy") "tokB" "txB"
        (startSession 0 "u1" (some "flappy") "tokA" "txA" dbOneCredit).2).1 ≠
      .insufficientCredits
    ∧ creditsOf (startSession 1 "u1" (some "flappy") "tokB" "txB"
        (startSession 0 "u1" (some "flappy") "tokA" "txA" dbOneCredit).2).2
        "u1" = 0 := by
  refine ⟨by decide, by decide, by decide, by decide⟩

/-- Claim C7 (amended).  Scenario B against the code: with exactly 1
credit, no active pass and no stored session, the first `POST /play/start`
succeeds with mode `credit`; a second call made while that session is
unexpired returns ACTIVE_SESSION_EXISTS, and one made at or after its
expiry returns INSUFFICIENT_CREDITS; in both cases the final balance is
0. -/
theorem scenarioB_amended (t1 t2 t3 : Nat) (uid g tokA txA tokB txB : String)
    (db : Db) (hw : db.wallets uid = some ⟨1, none⟩)
    (hs : db.playSessions = []) (hg : jsTrim g ≠ "")
    (ht2 : t1 ≤ t2) (ht2' : t2 < t1 + PLAY_SESSION_DURATION_MS)
    (ht3 : t1 + PLAY_SESSION_DURATION_MS ≤ t3) :
    (startSession t1 uid (some g) tokA txA db).1 =
      .ok tokA "credit" (t1 + PLAY_SESSION_DURATION_MS)
    ∧ creditsOf (startSession t1 uid (some g) tokA txA db).2 uid = 0
    ∧ startSession t2 uid (some g) tokB txB
        (startSession t1 uid (some g) tokA txA db).2 =
      (.activeSessionExists, (startSession t1 uid (some g) tokA txA db).2)
    ∧ creditsOf (startSession t2 uid (some g) tokB txB
        (startSession t1 uid (some g) tokA txA db).2).2 uid = 0
    ∧ (startSession t3 uid (some g) tokB txB
        (startSession t1 uid (some g) tokA txA db).2).1 =
      .insufficientCredits
    ∧ creditsOf (startSession t3 uid (some g) tokB txB
        (startSession t1 uid (some g) tokA txA db).2).2 uid = 0 := by
  have hex1 : db.playSessions.any
      (fun s => s.userId == uid && decide (t1 < s.expiresAt)) = false := by
    simp [hs]
  have hp1 : hasActivePass t1 ((db.wallets uid).getD emptyWallet) = false := by
    simp [hw, hasActivePass]
  have hc1 : 1 ≤ ((db.wallets uid).getD emptyWallet).credits := by
    simp [hw]
  have h1 := startSession_credit t1 uid g tokA txA db hg hex1 hp1 hc1
  set db1 := (startSession t1 uid (some g) tokA txA db).2 with hdb1
  have hdb1w : db1.wallets uid = some ⟨0, none⟩ := by
    rw [hdb1, h1]
    simp [setWallet, hw]
  have hdb1s : db1.playSessions =
      [⟨tokA, uid, jsTrim g, "credit", t1 + PLAY_SESSION_DURATION_MS, t1⟩] := by
    rw [hdb1, h1, hs]
    simp
  have hex2 : ∃ s ∈ db1.playSessions, s.userId = uid ∧ t2 < s.expiresAt := by
    rw [hdb1s]
    exact ⟨⟨tokA, uid, jsTrim g, "credit", t1 + PLAY_SESSION_DURATION_MS, t1⟩,
      by simp, rfl, ht2'⟩
  have hx2 := startSession_exclusivity t2 uid g tokB txB db1 hg hex2
  refine ⟨by rw [h1], ?_, hx2, ?_, ?_, ?_⟩
  · simp [creditsOf, hdb1w]
  · rw [hx2]
    simp [creditsOf, hdb1w]
  · have hex3 : db1.playSessions.any
        (fun s => s.userId == uid && decide (t3 < s.expiresAt)) = false := by
      rw [hdb1s]
      simp
      omega
    have hp3 : hasActivePass t3 ((db1.wallets uid).getD emptyWallet) = false := by
      simp [hdb1w, hasActivePass]
    have hc3 : ¬ 1 ≤ ((db1.wallets uid).getD emptyWallet).credits := by
      simp [hdb1w]
    rw [startSession_insufficient t3 uid g tokB txB db1 hg hex3 hp3 hc3]
  · have hex3 : db1.playSessions.any
        (fun s => s.userId == uid && decide (t3 < s.expiresAt)) = false := by
      rw [hdb1s]
      simp
      omega
    have hp3 : hasActivePass t3 ((db1.wallets uid).getD emptyWallet) = false := by
      simp [hdb1w, hasActivePass]
    have hc3 : ¬ 1 ≤ ((db1.wallets uid).getD emptyWallet).credits := by
      simp [hdb1w]
    rw [startSession_insufficient t3 uid g tokB txB db1 hg hex3 hp3 hc3]
    simp [creditsOf, ensureWallet, hdb1w]

theorem scenarioB_amended_witness :
    (dbOneCredit.wallets "u1" = some ⟨1, none⟩
      ∧ dbOneCredit.playSessions = []
      ∧ jsTrim "flappy" ≠ ""
      ∧ (0 : Nat) ≤ 1 ∧ (1 : Nat) < 0 + PLAY_SESSION_DURATION_MS
      ∧ 0 + PLAY_SESSION_DURATION_MS ≤ (300000 : Nat))
    ∧ (startSession 0 "u1" (some "flappy") "tokA" "txA" dbOneCredit).1 =
        .ok "tokA" "credit" (0 + PLAY_SESSION_DURATION_MS)
    ∧ startSession 1 "u1" (some "flappy") "tokB" "txB"
        (startSession 0 "u1" (some "flappy") "tokA" "txA" dbOneCredit).2 =
      (.activeSessionExists,
        (startSession 0 "u1" (some "flappy") "tokA" "txA" dbOneCredit).2)
    ∧ creditsOf (startSession 1 "u1" (some "flappy") "tokB" "txB"
        (startSession 0 "u1" (some "flappy") "tokA" "txA" dbOneCredit).2).2
        "u1" = 0
    ∧ (startSession 300000 "u1" (some "flappy") "tokB" "txB"
        (startSession 0 "u1" (some "flappy") "tokA" "txA" dbOneCredit).2).1 =
      .insufficientCredits
    ∧ creditsOf (startSession 300000 "u1" (some "flappy") "tokB" "txB"
        (startSession 0 "u1" (some "flappy") "tokA" "txA" dbOneCredit).2).2
        "u1" = 0 :=
  ⟨⟨by decide, rfl, by decide, by decide, by decide, by decide⟩,
    (scenarioB_amended 0 1 300000 "u1" "flappy" "tokA" "txA" "tokB" "txB"
      dbOneCredit (by decide) rfl (by decide) (by decide) (by decide)
      (by decide)).1,
    (scenarioB_amended 0 1 300000 "u1" "flappy" "tokA" "txA" "tokB" "txB"
      dbOneCredit (by decide) rfl (by decide) (by decide) (by decide)
      (by decide)).2.2.1,
    (scenarioB_amended 0 1 300000 "u1" "flappy" "tokA" "txA" "tokB" "txB"
      dbOneCredit (by decide) rfl (by decide) (by decide) (by decide)
      (by decide)).2.2.2.1,
    (scenarioB_amended 0 1 300000 "u1" "flappy" "tokA" "txA" "tokB" "txB"
      dbOneCredit (by decide) rfl (by decide) (by decide) (by decide)
      (by decide)).2.2.2.2.1,
    (scenarioB_amended 0 1 300000 "u1" "flappy" "tokA" "txA" "tokB" "txB"
      dbOneCredit (by decide) rfl (by decide) (by decide) (by decide)
      (by decide)).2.2.2.2.2⟩

/-- Claim C10.  `POST /play/start` performs no game-catalog validation:
any gameId that is non-blank after trimming is accepted as-is — the
created PlaySession stores exactly the trimmed string (one credit debited
in credit mode) and a later `verify` of the issued token returns that same
string; only a missing/non-string or blank gameId is answered 400. -/
theorem startSession_no_catalog_validation (now : Nat)
    (uid g tok txId : String) (db : Db) (hg : jsTrim g ≠ "")
    (hex : db.playSessions.any
      (fun s => s.userId == uid && decide (now < s.expiresAt)) = false)
    (hp : hasActivePass now ((db.wallets uid).getD emptyWallet) = false)
    (hc : 1 ≤ creditsOf db uid)
    (hfresh : ∀ s ∈ db.playSessions, s.playToken ≠ tok)
    (htok : jsTrim tok = tok) (htok' : tok ≠ "") :
    (startSession now uid (some g) tok txId db).1 =
      .ok tok "credit" (now + PLAY_SESSION_DURATION_MS)
    ∧ (startSession now uid (some g) tok txId db).2.playSessions =
        db.playSessions ++ [⟨tok, uid, jsTrim g, "credit",
          now + PLAY_SESSION_DURATION_MS, now⟩]
    ∧ creditsOf (startSession now uid (some g) tok txId db).2 uid =
        creditsOf db uid - 1
    ∧ (∀ t, t < now + PLAY_SESSION_DURATION_MS →
        verifyToken t (some tok) (startSession now uid (some g) tok txId db).2 =
          .ok (jsTrim g) "credit" (now + PLAY_SESSION_DURATION_MS))
    ∧ startSession now uid none tok txId db = (.badRequest, db)
    ∧ (∀ gs, jsTrim gs = "" →
        startSession now uid (some gs) tok txId db = (.badRequest, db)) := by
  have h1 := startSession_credit now uid g tok txId db hg hex hp hc
  have hsess : (startSession now uid (some g) tok txId db).2.playSessions =
      db.playSessions ++ [⟨tok, uid, jsTrim g, "credit",
        now + PLAY_SESSION_DURATION_MS, now⟩] := by
    rw [h1]
  refine ⟨by rw [h1], hsess, ?_, ?_, startSession_badRequest_none now uid tok txId db,
    fun gs hgs => startSession_badRequest_blank now uid gs tok txId db hgs⟩
  · rw [h1]
    simp [creditsOf, setWallet]
  · intro t ht
    have hfind : (startSession now uid (some g) tok txId db).2.playSessions.find?
        (fun s => s.playToken == jsTrim tok) =
        some ⟨tok, uid, jsTrim g, "credit",
          now + PLAY_SESSION_DURATION_MS, now⟩ := by
      rw [hsess, htok, List.find?_append]
      have hn : db.playSessions.find? (fun s => s.playToken == tok) = none :=
        List.find?_eq_none.mpr fun s hs => by simp [hfresh s hs]
      rw [hn]
      simp
    have hb : jsTrim tok ≠ "" := by rw [htok]; exact htok'
    simp [verifyToken, hb, hfind, Nat.not_le.mpr ht]

theorem startSession_no_catalog_validation_witness :
    (jsTrim " my weird game " ≠ ""
      ∧ (dbOneCredit.playSessions.any
          (fun s => s.userId == "u1" && decide (7 < s.expiresAt))) = false
      ∧ hasActivePass 7 ((dbOneCredit.wallets "u1").getD emptyWallet) = false
      ∧ 1 ≤ creditsOf dbOneCredit "u1"
      ∧ jsTrim "tokZ" = "tokZ" ∧ "tokZ" ≠ "")
    ∧ (startSession 7 "u1" (some " my weird game ") "tokZ" "txZ"
        dbOneCredit).1 = .ok "tokZ" "credit" (7 + PLAY_SESSION_DURATION_MS)
    ∧ verifyToken 8 (some "tokZ")
        (startSession 7 "u1" (some " my weird game ") "tokZ" "txZ"
          dbOneCredit).2 =
      .ok (jsTrim " my weird game ") "credit" (7 + PLAY_SESSION_DURATION_MS) :=
  ⟨⟨by decide, by decide, by decide, by decide, by decide, by decide⟩,
    (startSession_no_catalog_validation 7 "u1" " my weird game " "tokZ" "txZ"
      dbOneCredit (by decide) (by decide) (by decide) (by decide)
      (by simp [dbOneCredit]) (by decide) (by decide)).1,
    (startSession_no_catalog_validation 7 "u1" " my weird game " "tokZ" "txZ"
      dbOneCredit (by decide) (by decide) (by decide) (by decide)
      (by simp [dbOneCredit]) (by decide) (by decide)).2.2.2.1 8 (by decide)⟩

/-- A stand-in for the opaque HMAC primitive in concrete runs. -/
def hmacConst : String → List Nat → String := fun _ _ => "ab"

/-- A stand-in parser that rejects every body. -/
def parseNone : List Nat → Option Payload := fun _ => none

/-- An environment with no secrets configured at all. -/
def envNoSecret : Env := ⟨"", "", ["charge:confirmed"]⟩

/-- Counterexample to claim C2 as stated: with no webhook secret
configured AND the signature header missing, the handler answers 400 (the
header check runs first), not the 501 the claim requires for an
unconfigured secret. -/
theorem webhook_precedence_counterexample :
    envNoSecret.coinbaseWebhookSecret = ""
    ∧ (webhookRespond hmacConst parseNone envNoSecret 0 "tx" (some [])
        none emptyDb).1 = 400
    ∧ (webhookRespond hmacConst parseNone envNoSecret 0 "tx" (some [])
        none emptyDb).1 ≠ 501 := by
  exact ⟨rfl, rfl, by decide⟩

/-- Claim C2 (amended).  Webhook verification, in the code's check order:
a non-Buffer body or a missing `X-CC-Webhook-Signature` header is answered
400; otherwise an unconfigured webhook secret is answered 501; otherwise a
supplied signature that differs from the HMAC of the raw bytes (under the
code's hex-decoding timing-safe comparison) is answered 401; in every case
the store is returned untouched — no order, wallet, transaction or session
is created or mutated. -/
theorem webhook_verification (hmac : String → List Nat → String)
    (parse : List Nat → Option Payload) (env : Env) (now : Nat)
    (txId : String) (raw : Option (List Nat)) (sig : Option String)
    (db : Db) :
    (raw = none →
        webhookRespond hmac parse env now txId raw sig db = (400, db))
    ∧ (sig = none →
        webhookRespond hmac parse env now txId raw sig db = (400, db))
    ∧ (∀ r s, raw = some r → sig = some s →
        env.coinbaseWebhookSecret = "" →
        webhookRespond hmac parse env now txId raw sig db = (501, db))
    ∧ (∀ r s, raw = some r → sig = some s →
        env.coinbaseWebhookSecret ≠ "" →
        timingSafeEqualHex (hmac env.coinbaseWebhookSecret r) s = false →
        webhookRespond hmac parse env now txId raw sig db = (401, db)) := by
  refine ⟨?_, ?_, ?_, ?_⟩
  · intro h; subst h; rfl
  · intro h
    subst h
    cases raw <;> rfl
  · intro r s hr hs hsec
    subst hr; subst hs
    simp [webhookRespond, hsec]
  · intro r s hr hs hsec hne
    subst hr; subst hs
    simp [webhookRespond, hsec, hne]

/-- An environment with only the webhook secret configured. -/
def envSecretOnly : Env := ⟨"", "whsec", ["charge:confirmed"]⟩

theorem webhook_verification_witness :
    (envSecretOnly.coinbaseWebhookSecret ≠ ""
      ∧ timingSafeEqualHex (hmacConst envSecretOnly.coinbaseWebhookSecret [1])
          "cd" = false)
    ∧ webhookRespond hmacConst parseNone envSecretOnly 0 "tx" (some [1])
        (some "cd") emptyDb = (401, emptyDb) :=
  ⟨⟨by decide, by decide⟩,
    (webhook_verification hmacConst parseNone envSecretOnly 0 "tx" (some [1])
      (some "cd") emptyDb).2.2.2 [1] "cd" rfl rfl (by decide) (by decide)⟩

/-! ## Idempotent fulfillment (claim C1) -/

theorem stampFun_orderId (oid et : String) (now : Nat) (o : Order) :
    (stampFun oid et now o).orderId = o.orderId := by
  unfold stampFun; split <;> rfl

theorem stampFun_chargeId (oid et : String) (now : Nat) (o : Order) :
    (stampFun oid et now o).coinbaseChargeId = o.coinbaseChargeId := by
  unfold stampFun; split <;> rfl

theorem stampFun_code (oid et : String) (now : Nat) (o : Order) :
    (stampFun oid et now o).coinbaseCode = o.coinbaseCode := by
  unfold stampFun; split <;> rfl

theorem stampFun_fulfilledAt (oid et : String) (now : Nat) (o : Order) :
    (stampFun oid et now o).fulfilledAt = o.fulfilledAt := by
  unfold stampFun; split <;> rfl

theorem markFun_orderId (oid : String) (now : Nat) (o : Order) :
    (markFun oid now o).orderId = o.orderId := by
  unfold markFun; split <;> rfl

theorem markFun_chargeId (oid : String) (now : Nat) (o : Order) :
    (markFun oid now o).coinbaseChargeId = o.coinbaseChargeId := by
  unfold markFun; split <;> rfl

theorem markFun_code (oid : String) (now : Nat) (o : Order) :
    (markFun oid now o).coinbaseCode = o.coinbaseCode := by
  unfold markFun; split <;> rfl

theorem markFun_fulfilledAt_self (now : Nat) (o : Order) :
    (markFun o.orderId now o).fulfilledAt = some now := by
  unfold markFun; rw [if_pos rfl]

theorem find?_key_map (orders : List Order) (f : Order → Order)
    (q : Order → Bool) (hq : ∀ o, q (f o) = q o) :
    (orders.map f).find? q = (orders.find? q).map f := by
  rw [List.find?_map]
  have : (q ∘ f) = q := funext fun o => by simp [Function.comp, hq]
  rw [this]

/-- Lemma: `findOrder` commutes with any rewriting of the order rows that keeps
the three lookup keys: resolution lands on the rewritten image of the same
row. -/
theorem findOrder_map (orders : List Order) (p : Payload) (f : Order → Order)
    (hid : ∀ o, (f o).orderId = o.orderId)
    (hch : ∀ o, (f o).coinbaseChargeId = o.coinbaseChargeId)
    (hco : ∀ o, (f o).coinbaseCode = o.coinbaseCode) :
    findOrder (orders.map f) p = (findOrder orders p).map f := by
  unfold findOrder
  have h1 : ∀ oid : String, (orders.map f).find? (fun o => o.orderId == oid)
      = (orders.find? fun o => o.orderId == oid).map f :=
    fun oid => find?_key_map orders f _ fun o => by rw [hid]
  have h2 : ∀ cid : String,
      (orders.map f).find? (fun o => o.coinbaseChargeId == some cid)
      = (orders.find? fun o => o.coinbaseChargeId == some cid).map f :=
    fun cid => find?_key_map orders f _ fun o => by rw [hch]
  have h3 : ∀ c : String,
      (orders.map f).find? (fun o => o.coinbaseCode == some c)
      = (orders.find? fun o => o.coinbaseCode == some c).map f :=
    fun c => find?_key_map orders f _ fun o => by rw [hco]
  have hbind : ∀ (x : Option String) (g : String → Option Order),
      (x.bind fun v => (g v).map f) = (x.bind g).map f := by
    intro x g; cases x <;> simp
  have hor : ∀ a b : Option Order,
      (a.map f).or (b.map f) = (a.or b).map f := by
    intro a b; cases a <;> simp
  simp only [h1, h2, h3, hbind, hor]

/-- Closed form of the wallet table after one grant. -/
def grantWallets (now : Nat) (item : CatalogItem) (uid : String)
    (w : String → Option Wallet) : String → Option Wallet :=
  fun u =>
    if u = uid then some (grantWalletResult now item ((w uid).getD emptyWallet))
    else w u

theorem grantForSku_wallets_fun (db : Db) (now : Nat) (txId uid sku : String)
    (item : CatalogItem) :
    (grantForSku db now txId uid sku item).wallets =
      grantWallets now item uid db.wallets := by
  funext u
  by_cases h : u = uid
  · subst h
    rw [grantForSku_wallets_self]
    simp [grantWallets]
  · rw [grantForSku_wallets_other db now txId uid sku item u h]
    simp [grantWallets, h]

/-- A verified fulfilling event on an unfulfilled, catalog-valid order:
stamp the status, grant once, mark fulfilled — all in one transaction. -/
theorem processEvent_fulfills (env : Env) (now : Nat) (txId : String)
    (p : Payload) (db : Db) (ord : Order) (item : CatalogItem) (et : String)
    (hfind : findOrder db.orders p = some ord)
    (het : p.eventType = some et) (hin : et ∈ env.fulfillOnEvents)
    (hnf : ord.fulfilledAt = none)
    (hsku : SKU_CATALOG ord.sku = some item) :
    processEvent env now txId p db =
      { orders := db.orders.map
          (fun o => markFun ord.orderId now (stampFun ord.orderId et now o)),
        wallets := grantWallets now item ord.userId db.wallets,
        transactions := db.transactions ++
          [⟨txId, ord.userId, "purchase", some ord.sku,
            (item.grantCredits : Int), now⟩],
        playSessions := db.playSessions } := by
  unfold processEvent
  rw [het]
  simp only [hfind]
  rw [if_pos hin, hnf]
  simp only [Option.isSome_none, Bool.false_eq_true, if_false, hsku]
  refine Db.ext ?_ ?_ ?_ ?_
  · show markFulfilled
      (grantForSku { db with orders := stampStatus db.orders ord.orderId et now }
        now txId ord.userId ord.sku item).orders ord.orderId now = _
    rw [grantForSku_orders]
    show markFulfilled (stampStatus db.orders ord.orderId et now) ord.orderId now = _
    unfold markFulfilled stampStatus
    rw [List.map_map]
    rfl
  · show (grantForSku { db with orders := stampStatus db.orders ord.orderId et now }
        now txId ord.userId ord.sku item).wallets = _
    rw [grantForSku_wallets_fun]
  · show (grantForSku { db with orders := stampStatus db.orders ord.orderId et now }
        now txId ord.userId ord.sku item).transactions = _
    rw [grantForSku_transactions]
  · show (grantForSku { db with orders := stampStatus db.orders ord.orderId et now }
        now txId ord.userId ord.sku item).playSessions = _
    rw [grantForSku_playSessions]

/-- A verified event resolving to an already-fulfilled order: stamp the
status, skip the grant, still acknowledge. -/
theorem processEvent_skips (env : Env) (now : Nat) (txId : String)
    (p : Payload) (db : Db) (o : Order) (et : String)
    (hfind : findOrder db.orders p = some o) (het : p.eventType = some et)
    (hf : o.fulfilledAt.isSome = true) :
    processEvent env now txId p db =
      { db with orders := stampStatus db.orders o.orderId et now } := by
  unfold processEvent
  rw [het]
  simp only [hfind]
  by_cases hin : et ∈ env.fulfillOnEvents
  · rw [if_pos hin, hf]
    simp
  · rw [if_neg hin]

/-- Once the referenced order is fulfilled, any further sequence of
verified deliveries resolving to it leaves wallets and transactions
untouched; the orders table only gets status stamps that keep the lookup
keys and the fulfilled timestamp. -/
theorem deliverAll_fulfilled (env : Env) (db0 : Db) (ord : Order) (t1 : Nat) :
    ∀ (ds : List (Nat × String × Payload)) (db : Db) (F : Order → Order),
      (∀ x ∈ ds, findOrder db0.orders x.2.2 = some ord) →
      db.orders = db0.orders.map F →
      (∀ o, (F o).orderId = o.orderId) →
      (∀ o, (F o).coinbaseChargeId = o.coinbaseChargeId) →
      (∀ o, (F o).coinbaseCode = o.coinbaseCode) →
      (F ord).fulfilledAt = some t1 →
      (deliverAll env ds db).wallets = db.wallets
      ∧ (deliverAll env ds db).transactions = db.transactions
      ∧ ∃ F', (deliverAll env ds db).orders = db0.orders.map F'
          ∧ (∀ o, (F' o).orderId = o.orderId)
          ∧ (∀ o, (F' o).coinbaseChargeId = o.coinbaseChargeId)
          ∧ (∀ o, (F' o).coinbaseCode = o.coinbaseCode)
          ∧ (F' ord).fulfilledAt = some t1 := by
  intro ds
  induction ds with
  | nil =>
      intro db F _ horders hid hch hco hf
      exact ⟨rfl, rfl, F, horders, hid, hch, hco, hf⟩
  | cons x rest ih =>
      intro db F href horders hid hch hco hf
      obtain ⟨now, txId, p⟩ := x
      have hfind : findOrder db.orders p = some (F ord) := by
        rw [horders, findOrder_map db0.orders p F hid hch hco,
          href (now, txId, p) (List.mem_cons_self _ _)]
        rfl
      have hunfold : deliverAll env ((now, txId, p) :: rest) db =
          deliverAll env rest (processEvent env now txId p db) := rfl
      rw [hunfold]
      cases het : p.eventType with
      | none =>
          have hstep : processEvent env now txId p db = db := by
            unfold processEvent
            rw [het]
          rw [hstep]
          exact ih db F (fun y hy => href y (List.mem_cons_of_mem _ hy))
            horders hid hch hco hf
      | some et =>
          have hstep := processEvent_skips env now txId p db (F ord) et hfind
            het (by rw [hf]; rfl)
          rw [hstep]
          have horders' : ({ db with orders := stampStatus db.orders (F ord).orderId et now } : Db).orders = db0.orders.map (fun o => stampFun (F ord).orderId et now (F o)) := by
            show stampStatus db.orders (F ord).orderId et now = _
            rw [horders]
            unfold stampStatus
            rw [List.map_map]
            rfl
          have hres := ih { db with orders := stampStatus db.orders (F ord).orderId et now }
            (fun o => stampFun (F ord).orderId et now (F o))
            (fun y hy => href y (List.mem_cons_of_mem _ hy)) horders'
            (fun o => by rw [stampFun_orderId, hid])
            (fun o => by rw [stampFun_chargeId, hch])
            (fun o => by rw [stampFun_code, hco])
            (by rw [stampFun_fulfilledAt, hf])
          exact hres

theorem markFun_fulfilledAt_of (oid : String) (now : Nat) (o : Order)
    (h : o.orderId = oid) : (markFun oid now o).fulfilledAt = some now := by
  unfold markFun; rw [if_pos h]

/-- Claim C1.  Idempotent webhook fulfillment: for N ≥ 1 sequential
verified deliveries that resolve to the same unfulfilled, catalog-valid
order, the first of which carries an allow-listed event type, the wallet
table ends exactly as after one single grant for the order's sku, exactly
one `purchase` transaction row is appended, and the order's
`fulfilled_at` is set exactly once — to the first delivery's time; every
delivery is acknowledged 200 (`processEvent` total and `webhookRespond`
replies 200 on every post-verification path), the later ones without
granting. -/
theorem webhook_fulfillment_idempotent (env : Env) (t1 : Nat) (tx1 : String)
    (p1 : Payload) (ds : List (Nat × String × Payload)) (db : Db)
    (ord : Order) (item : CatalogItem) (et1 : String)
    (hfind1 : findOrder db.orders p1 = some ord)
    (hds : ∀ x ∈ ds, findOrder db.orders x.2.2 = some ord)
    (het1 : p1.eventType = some et1) (hin1 : et1 ∈ env.fulfillOnEvents)
    (hnf : ord.fulfilledAt = none)
    (hsku : SKU_CATALOG ord.sku = some item) :
    (deliverAll env ((t1, tx1, p1) :: ds) db).wallets =
      grantWallets t1 item ord.userId db.wallets
    ∧ (deliverAll env ((t1, tx1, p1) :: ds) db).transactions =
        db.transactions ++ [⟨tx1, ord.userId, "purchase", some ord.sku,
          (item.grantCredits : Int), t1⟩]
    ∧ (∀ x ∈ ((t1, tx1, p1) :: ds), ∃ o',
        findOrder (deliverAll env ((t1, tx1, p1) :: ds) db).orders x.2.2 =
          some o' ∧ o'.fulfilledAt = some t1) := by
  have hstep := processEvent_fulfills env t1 tx1 p1 db ord item et1 hfind1
    het1 hin1 hnf hsku
  have hunfold : deliverAll env ((t1, tx1, p1) :: ds) db =
      deliverAll env ds (processEvent env t1 tx1 p1 db) := rfl
  have hid0 : ∀ o : Order,
      ((fun o => markFun ord.orderId t1 (stampFun ord.orderId et1 t1 o)) o).orderId
        = o.orderId := fun o => by rw [markFun_orderId, stampFun_orderId]
  have hch0 : ∀ o : Order,
      ((fun o => markFun ord.orderId t1 (stampFun ord.orderId et1 t1 o)) o).coinbaseChargeId
        = o.coinbaseChargeId := fun o => by rw [markFun_chargeId, stampFun_chargeId]
  have hco0 : ∀ o : Order,
      ((fun o => markFun ord.orderId t1 (stampFun ord.orderId et1 t1 o)) o).coinbaseCode
        = o.coinbaseCode := fun o => by rw [markFun_code, stampFun_code]
  have hf0 : ((fun o => markFun ord.orderId t1 (stampFun ord.orderId et1 t1 o)) ord).fulfilledAt
      = some t1 :=
    markFun_fulfilledAt_of ord.orderId t1 _ (stampFun_orderId _ _ _ _)
  have horders1 : (processEvent env t1 tx1 p1 db).orders =
      db.orders.map (fun o => markFun ord.orderId t1 (stampFun ord.orderId et1 t1 o)) := by
    rw [hstep]
  have hmain := deliverAll_fulfilled env db ord t1 ds
    (processEvent env t1 tx1 p1 db)
    (fun o => markFun ord.orderId t1 (stampFun ord.orderId et1 t1 o))
    hds horders1 hid0 hch0 hco0 hf0
  obtain ⟨hw, ht, F', hordersF, hidF, hchF, hcoF, hfF⟩ := hmain
  refine ⟨?_, ?_, ?_⟩
  · rw [hunfold, hw, hstep]
  · rw [hunfold, ht, hstep]
  · intro x hx
    refine ⟨F' ord, ?_, hfF⟩
    rw [hunfold, hordersF, findOrder_map db.orders x.2.2 F' hidF hchF hcoF]
    rcases List.mem_cons.mp hx with h | h
    · rw [h]
      show (findOrder db.orders p1).map F' = _
      rw [hfind1]
      rfl
    · rw [hds x h]
      rfl

/-- A concrete unfulfilled order and a store containing only it. -/
def ordSample : Order :=
  ⟨"ord1", "u1", "CREDITS_10", "5.00", some "ch1", some "co1",
   some "http://pay", "created", 0, 0, none⟩

/-- A store holding one unfulfilled order and nothing else. -/
def dbOrder : Db := ⟨[ordSample], fun _ => none, [], []⟩

/-- A verified `charge:confirmed` payload referencing `ordSample` by its
embedded order id. -/
def pConfirmed : Payload := ⟨some "charge:confirmed", some "ord1", none, none⟩

/-- The `CREDITS_10` catalog item. -/
def item10 : CatalogItem := ⟨"5.00", "10 Credits", 10, 0⟩

theorem webhook_fulfillment_idempotent_witness :
    (findOrder dbOrder.orders pConfirmed = some ordSample
      ∧ pConfirmed.eventType = some "charge:confirmed"
      ∧ "charge:confirmed" ∈ envConfigured.fulfillOnEvents
      ∧ ordSample.fulfilledAt = none
      ∧ SKU_CATALOG ordSample.sku = some item10)
    ∧ (deliverAll envConfigured
        [(10, "t1", pConfirmed), (20, "t2", pConfirmed)] dbOrder).wallets "u1" =
      grantWallets 10 item10 "u1" dbOrder.wallets "u1"
    ∧ (deliverAll envConfigured
        [(10, "t1", pConfirmed), (20, "t2", pConfirmed)] dbOrder).transactions =
      dbOrder.transactions ++
        [⟨"t1", "u1", "purchase", some "CREDITS_10", (10 : Int), 10⟩] := by
  have h := webhook_fulfillment_idempotent envConfigured 10 "t1" pConfirmed
    [(20, "t2", pConfirmed)] dbOrder ordSample item10 "charge:confirmed"
    rfl
    (by
      intro x hx
      rw [List.mem_singleton.mp hx]
      rfl)
    rfl (by decide) rfl rfl
  exact ⟨⟨rfl, rfl, by decide, rfl, rfl⟩, congrFun h.1 "u1", h.2.1⟩
